import Mathlib

/-!
Shallow embedding of the encrypted credential store and TOTP engine of
OTP-pyAuth (`src/database.py`, `src/totp_generator.py`).

Modelling conventions:
* Python byte strings are `List Nat` with entries `< 256`; Python text
  strings are Lean `String`.  `str.encode()` / `bytes.decode()` (UTF-8) are
  modelled by `strBytes` / `byteStr`, which are exact on ASCII text (the
  only text the repository stores: Base32 secrets and base64 envelopes).
* The Fernet cipher (third-party `cryptography.fernet`) is modelled by an
  abstract structure `FernetCipher` carrying the library's documented
  contract: decrypting an encryption of a byte string under the same key
  returns that byte string, and ciphertexts are byte strings.
* `base64.b64encode` / `base64.b64decode` (Python standard library) are
  implemented concretely below; `b64decode` follows CPython's lenient
  `binascii.a2b_base64` (non-alphabet characters are discarded, padding is
  not required, one leftover character is an error).
* SQLite is modelled by an explicit table `List Row`; a raised storage
  exception is `Except.error`.  Each `Database` method opens its own
  connection, so each operation is a function of the storage outcome.
-/

/-- One row of the `accounts` table: `id`, `name`, encrypted `secret`
(the base64 text envelope as stored), `issuer`, `created_at`. -/
structure Row where
  id : Nat
  name : String
  secret : List Char
  issuer : String
  created_at : Nat
deriving DecidableEq, Repr

/-- A decrypted account as returned by `Database.get_all_accounts`
(the SELECT projects `id, name, secret, issuer`). -/
structure Account where
  id : Nat
  name : String
  secret : String
  issuer : String
deriving DecidableEq, Repr

/-- Storage-layer failures (disk, permission, I/O); the payload is the
exception message. -/
abbrev StorageErr := String

instance {ε α : Type} [DecidableEq ε] [DecidableEq α] : DecidableEq (Except ε α) :=
  fun a b =>
    match a, b with
    | .error e₁, .error e₂ => decidable_of_iff (e₁ = e₂) (by simp)
    | .error _, .ok _ => isFalse (fun h => Except.noConfusion h)
    | .ok _, .error _ => isFalse (fun h => Except.noConfusion h)
    | .ok a₁, .ok a₂ => decidable_of_iff (a₁ = a₂) (by simp)

/-- UTF-8 encoding of a Python string, exact for ASCII text. -/
def strBytes (s : String) : List Nat := s.data.map Char.toNat

/-- UTF-8 decoding of a byte string, exact for ASCII bytes. -/
def byteStr (l : List Nat) : String := ⟨l.map Char.ofNat⟩

/-- Character of the base64 alphabet for a 6-bit value. -/
def b64chr (n : Nat) : Char :=
  if n < 26 then Char.ofNat (65 + n)
  else if n < 52 then Char.ofNat (97 + (n - 26))
  else if n < 62 then Char.ofNat (48 + (n - 52))
  else if n = 62 then '+' else '/'

/-- 6-bit value of a base64 alphabet character, `none` for every other
character (including the padding character). -/
def b64val (c : Char) : Option Nat :=
  if 'A' ≤ c ∧ c ≤ 'Z' then some (c.toNat - 65)
  else if 'a' ≤ c ∧ c ≤ 'z' then some (c.toNat - 97 + 26)
  else if '0' ≤ c ∧ c ≤ '9' then some (c.toNat - 48 + 52)
  else if c = '+' then some 62
  else if c = '/' then some 63
  else none

/-- `base64.b64encode` on a byte string: groups of three bytes become four
alphabet characters; a final group of one or two bytes is padded with
`=` characters. -/
def b64encode : List Nat → List Char
  | [] => []
  | [a] => [b64chr (a / 4), b64chr (a % 4 * 16), '=', '=']
  | [a, b] => [b64chr (a / 4), b64chr (a % 4 * 16 + b / 16), b64chr (b % 16 * 4), '=']
  | a :: b :: c :: rest =>
      b64chr (a / 4) :: b64chr (a % 4 * 16 + b / 16) :: b64chr (b % 16 * 4 + c / 64) ::
        b64chr (c % 64) :: b64encode rest

/-- Decode a stream of 6-bit values into bytes, as CPython's lenient
`binascii.a2b_base64` does after discarding non-alphabet characters:
quads give three bytes, a final pair or triple gives one or two bytes,
a single leftover value is an error. -/
def decodeQuads : List Nat → Option (List Nat)
  | [] => some []
  | [_] => none
  | [p, q] => some [p * 4 + q / 16]
  | [p, q, r] => some [p * 4 + q / 16, q % 16 * 16 + r / 4]
  | p :: q :: r :: s :: rest =>
      (decodeQuads rest).map
        (fun tl => (p * 4 + q / 16) :: (q % 16 * 16 + r / 4) :: (r % 4 * 64 + s) :: tl)

/-- `base64.b64decode` with CPython's default lenient mode: characters
outside the alphabet (and padding) are discarded, then the 6-bit values
are packed into bytes. -/
def b64decode (cs : List Char) : Option (List Nat) :=
  decodeQuads (cs.filterMap b64val)

/-- The contract of `cryptography.fernet.Fernet` used by `database.py`:
an authenticated symmetric cipher on byte strings.  `dec` is partial
because decryption fails (`InvalidToken`) on tampered or foreign
ciphertexts. -/
structure FernetCipher where
  enc : List Nat → List Nat
  dec : List Nat → Option (List Nat)
  enc_bytes : ∀ p, (∀ b ∈ p, b < 256) → ∀ b ∈ enc p, b < 256
  dec_enc : ∀ p, (∀ b ∈ p, b < 256) → dec (enc p) = some p

/-- `Database.encrypt_secret`: Fernet-encrypt the plaintext bytes and
base64-encode the result for storage as text. -/
def encrypt_secret (F : FernetCipher) (p : List Nat) : List Char :=
  b64encode (F.enc p)

/-- `Database.decrypt_secret`: base64-decode the stored envelope and
Fernet-decrypt; `none` models a raised exception at either stage. -/
def decrypt_secret (F : FernetCipher) (cs : List Char) : Option (List Nat) :=
  (b64decode cs).bind F.dec

/-- A concrete cipher satisfying the Fernet contract, used to instantiate
the round-trip theorems on concrete data. -/
def idFernet : FernetCipher where
  enc := fun p => p
  dec := fun c => some c
  enc_bytes := fun _ h => h
  dec_enc := fun _ _ => rfl

/-- The ordering used by `SELECT ... ORDER BY name`. -/
def byName (a b : Row) : Prop := a.name ≤ b.name

instance : DecidableRel byName := fun a b => inferInstanceAs (Decidable (a.name ≤ b.name))

/-- The body of the decryption loop in `Database.get_all_accounts`: decrypt
one fetched row into an `Account`; `none` models the caught per-row
exception (on which the row is skipped). -/
def decryptRow (F : FernetCipher) (r : Row) : Option Account :=
  match decrypt_secret F r.secret with
  | none => none
  | some bs => some ⟨r.id, r.name, byteStr bs, r.issuer⟩

/-- `Database.get_all_accounts`: the `SELECT id, name, secret, issuer FROM
accounts ORDER BY name` outcome is `st` (`Except.error` models both a
raised sqlite exception and, equivalently, the missing-database early
return); the outer `try`/`except` converts any storage error into a normal
empty listing, and the loop skips rows whose decryption raises. -/
def get_all_accounts (F : FernetCipher) (st : Except StorageErr (List Row)) : List Account :=
  match st with
  | .error _ => []
  | .ok rows => (List.insertionSort byName rows).filterMap (decryptRow F)

/-- Models SQLite's id assignment for `INSERT`: one more than the largest
id ever used (`AUTOINCREMENT`), returned to the caller via `lastrowid`. -/
def nextId (db : List Row) : Nat := db.foldr (fun r m => max r.id m) 0 + 1

/-- `Database.add_account`: encrypt the secret exactly as given (no
cleaning happens in this method) and INSERT a new row; a storage error is
re-raised.  `now` is the `CURRENT_TIMESTAMP` default for `created_at`. -/
def add_account (F : FernetCipher) (st : Except StorageErr (List Row))
    (name secret issuer : String) (now : Nat) : Except StorageErr (List Row × Nat) :=
  match st with
  | .error e => .error e
  | .ok db =>
      .ok (db ++ [⟨nextId db, name, encrypt_secret F (strBytes secret), issuer, now⟩], nextId db)

/-- `Database.delete_account`: `DELETE FROM accounts WHERE id = ?`; a
storage error is re-raised. -/
def delete_account (st : Except StorageErr (List Row)) (account_id : Nat) :
    Except StorageErr (List Row) :=
  match st with
  | .error e => .error e
  | .ok db => .ok (db.filter (fun r => r.id != account_id))

/-- `Database.update_account`: `UPDATE accounts SET name, secret, issuer
WHERE id = ?`; rows with other ids are untouched, a missing id matches no
row, and a storage error is re-raised. -/
def update_account (F : FernetCipher) (st : Except StorageErr (List Row)) (account_id : Nat)
    (name secret issuer : String) : Except StorageErr (List Row) :=
  match st with
  | .error e => .error e
  | .ok db =>
      .ok (db.map (fun r =>
        if r.id = account_id then
          ⟨r.id, name, encrypt_secret F (strBytes secret), issuer, r.created_at⟩
        else r))

/-- `Database.setup_encryption`: if `key.key` is absent, generate a fresh
Fernet key and persist it, then load whatever the file holds.  The
`rows` parameter is the current contents of the `accounts` table; the
method never consults it (it is unused below, exactly as in the source).
Returns (state of the key file afterwards, key loaded into the cipher). -/
def setup_encryption (rows : List Row) (keyFile : Option (List Nat)) (freshKey : List Nat) :
    Option (List Nat) × List Nat :=
  match keyFile with
  | none => (some freshKey, freshKey)
  | some k => (some k, k)

/-- Membership in the Base32 alphabet `[A-Z2-7]`. -/
def isB32 (c : Char) : Bool :=
  decide ('A' ≤ c ∧ c ≤ 'Z') || decide ('2' ≤ c ∧ c ≤ '7')

/-- `TOTPGenerator.clean_secret`: uppercase, then drop every character
outside the Base32 alphabet. -/
def clean_secret (s : String) : String :=
  ⟨(s.data.map Char.toUpper).filter isB32⟩

/-- 5-bit value of a Base32 alphabet character (`A`-`Z` then `2`-`7`),
`none` for any other character. -/
def b32val (c : Char) : Option Nat :=
  if 'A' ≤ c ∧ c ≤ 'Z' then some (c.toNat - 65)
  else if '2' ≤ c ∧ c ≤ '7' then some (c.toNat - 50 + 26)
  else none

/-- The five bits of a 5-bit value, most significant first. -/
def valBits (v : Nat) : List Nat :=
  [v / 16 % 2, v / 8 % 2, v / 4 % 2, v / 2 % 2, v % 2]

/-- Pack a bit stream into bytes, dropping a trailing partial byte (as
CPython's `b32decode` does for the final quantum). -/
def bytesOfBits : List Nat → List Nat
  | b7 :: b6 :: b5 :: b4 :: b3 :: b2 :: b1 :: b0 :: rest =>
      (b7 * 128 + b6 * 64 + b5 * 32 + b4 * 16 + b3 * 8 + b2 * 4 + b1 * 2 + b0)
        :: bytesOfBits rest
  | _ => []

/-- `pyotp`'s `byte_secret`: pad the cleaned secret with `=` to a multiple
of eight characters and `base64.b32decode` it.  Decoding fails
(`binascii.Error`, i.e. `none`) when a character is outside the alphabet
or when the data length modulo 8 is 1, 3 or 6 (an impossible Base32
final-quantum length). -/
def b32decode (s : String) : Option (List Nat) :=
  match s.data.mapM b32val with
  | none => none
  | some vals =>
      if s.data.length % 8 = 1 ∨ s.data.length % 8 = 3 ∨ s.data.length % 8 = 6 then none
      else some (bytesOfBits (vals.flatMap valBits))

/-- `pyotp.utils.build_uri`-side counter bytes: the time step as an 8-byte
big-endian byte string (`int_to_bytestring`). -/
def int_to_bytestring (i : Nat) : List Nat :=
  [i / 2 ^ 56 % 256, i / 2 ^ 48 % 256, i / 2 ^ 40 % 256, i / 2 ^ 32 % 256,
   i / 2 ^ 24 % 256, i / 2 ^ 16 % 256, i / 2 ^ 8 % 256, i % 256]

/-- RFC 4226 dynamic truncation of an HMAC-SHA1 digest followed by the
6-digit reduction: offset from the low nibble of the last byte, a 31-bit
big-endian word from the four bytes there, reduced modulo 10^6. -/
def dynamic_truncate (hs : List Nat) : Nat :=
  ((hs.getD (hs.getLastD 0 % 16) 0 % 128) * 2 ^ 24
    + hs.getD (hs.getLastD 0 % 16 + 1) 0 % 256 * 2 ^ 16
    + hs.getD (hs.getLastD 0 % 16 + 2) 0 % 256 * 2 ^ 8
    + hs.getD (hs.getLastD 0 % 16 + 3) 0 % 256) % 1000000

/-- A decimal digit character. -/
def digitChar (d : Nat) : Char := Char.ofNat (48 + d % 10)

/-- Python's `f"{n:06d}"` for `n < 10^6`: the six decimal digits of `n`,
left-zero-padded. -/
def formatCode (n : Nat) : String :=
  ⟨[digitChar (n / 100000), digitChar (n / 10000), digitChar (n / 1000),
    digitChar (n / 100), digitChar (n / 10), digitChar n]⟩

/-- `TOTPGenerator.generate_token` at unix time `t`, parameterised by the
HMAC-SHA1 primitive (`hmacSha1 key message`): clean the secret, Base32-
decode it (`pyotp.TOTP(...).now()` decodes on use), derive the code for
time step `t / 30`, format to six digits; any raised exception (in the
source, the Base32 decoding error) becomes the sentinel `"ERROR"`. -/
def generate_token (hmacSha1 : List Nat → List Nat → List Nat) (secret : String)
    (t : Nat) : String :=
  match b32decode (clean_secret secret) with
  | none => "ERROR"
  | some key => formatCode (dynamic_truncate (hmacSha1 key (int_to_bytestring (t / 30))))

/-- `TOTPGenerator.validate_secret`: length and alphabet checks on the
cleaned secret, then `pyotp.TOTP(cleaned)` — whose constructor stores the
string without decoding it and therefore never raises for a `str`
argument (modelled from the pyotp library source), so the final branch
always succeeds. -/
def validate_secret (s : String) : Bool × String :=
  if (clean_secret s).data.length < 8 then
    (false, "Chave muito curta (mínimo 8 caracteres)")
  else if !((clean_secret s).data.all isB32 && !(clean_secret s).data.isEmpty) then
    (false, "Chave contém caracteres inválidos")
  else (true, "Chave válida")

/-- `TOTPGenerator.get_time_remaining` at unix time `t` (the source uses
`int(time.time())`; `t` is that integer): `30 - t % 30`. -/
def get_time_remaining (t : Nat) : Nat := 30 - t % 30

/-- `TOTPGenerator.get_progress_percentage` at unix time `t`; Python float
arithmetic on these small integer ratios is modelled exactly in `ℚ`. -/
def get_progress_percentage (t : Nat) : ℚ :=
  ((30 - (get_time_remaining t : ℚ)) / 30) * 100

/-- A string of exactly six ASCII digits. -/
def isSixDigits (s : String) : Prop :=
  s.length = 6 ∧ ∀ c ∈ s.data, '0' ≤ c ∧ c ≤ '9'

/-- A stand-in HMAC-SHA1 primitive used to instantiate theorems that are
parametric in the digest function. -/
def zeroHmac : List Nat → List Nat → List Nat := fun _ _ => List.replicate 20 0

/-- Python `str.startswith`: does `pat` lead the list? -/
def hasLead : List Char → List Char → Bool
  | [], _ => true
  | _ :: _, [] => false
  | p :: ps, c :: cs => p == c && hasLead ps cs

/-- Python `in` on strings: does `pat` occur contiguously anywhere? -/
def hasInside (pat : List Char) : List Char → Bool
  | [] => pat.isEmpty
  | c :: rest => hasLead pat (c :: rest) || hasInside pat rest

/-- The scheme tested by `url.startswith('otpauth://')`. -/
def schemeTag : List Char := "otpauth://".data

/-- The TOTP marker tested by `'otpauth://totp/' in url` and removed by
`url.replace('otpauth://totp/', '')`. -/
def totpTag : List Char := "otpauth://totp/".data

/-- Python `str.replace(totpTag, '')`: remove every non-overlapping
occurrence, scanning left to right.  The fuel argument (instantiated with
the string length) only makes the recursion structural. -/
def stripTag : Nat → List Char → List Char
  | 0, s => s
  | _ + 1, [] => []
  | fuel + 1, c :: rest =>
      if hasLead totpTag (c :: rest) then stripTag fuel ((c :: rest).drop totpTag.length)
      else c :: stripTag fuel rest

/-- Python `s.split(sep, 1)` when `sep` occurs: the part before the first
occurrence and the rest; `none` when `sep` does not occur (`sep in s` is
false). -/
def splitFirst (sep : Char) : List Char → Option (List Char × List Char)
  | [] => none
  | c :: rest =>
      if c = sep then some ([], rest)
      else (splitFirst sep rest).map (fun pr => (c :: pr.1, pr.2))

/-- Python `s.split(sep)`. -/
def splitAll (sep : Char) : List Char → List (List Char)
  | [] => [[]]
  | c :: rest =>
      if c = sep then [] :: splitAll sep rest
      else
        match splitAll sep rest with
        | [] => [[c]]
        | h :: t => (c :: h) :: t

/-- The `params` dictionary of `parse_otpauth_url`: each `&`-separated part
containing `=` is split on the first `=`; later assignments to the same
key overwrite earlier ones, so lookup takes the last pair. -/
def dictGet (k : List Char) (parts : List (List Char)) : Option (List Char) :=
  (((parts.filterMap (splitFirst '=')).reverse.find? (fun pr => pr.1 == k)).map
    (fun pr => pr.2))

/-- `TOTPGenerator.parse_otpauth_url`: returns `(record, message)` where
the record (name, secret, issuer) is `none` on rejection.  Note the source
tests `'otpauth://totp/' in url` (substring containment), not a second
`startswith`, and removes every occurrence of that substring. -/
def parse_otpauth_url (url : String) : Option (String × String × String) × String :=
  if hasLead schemeTag url.data then
    if hasInside totpTag url.data then
      match splitFirst '?' (stripTag url.data.length url.data) with
      | none => (none, "URL malformada")
      | some pr =>
          match dictGet "secret".data (splitAll '&' pr.2) with
          | none => (none, "Chave secreta não encontrada na URL")
          | some sec =>
              (some (⟨pr.1⟩, ⟨sec⟩, ⟨(dictGet "issuer".data (splitAll '&' pr.2)).getD []⟩),
               "URL analisada com sucesso")
    else (none, "URL deve ser do tipo TOTP")
  else (none, "URL deve começar com otpauth://")

/-- The alphabet maps are mutually inverse on 6-bit values. -/
theorem b64val_b64chr : ∀ n < 64, b64val (b64chr n) = some n := by decide

theorem b64val_pad : b64val '=' = none := by decide

/-- Decoding inverts encoding on byte strings. -/
theorem b64decode_b64encode : ∀ bs : List Nat, (∀ b ∈ bs, b < 256) →
    b64decode (b64encode bs) = some bs
  | [], _ => by simp [b64decode, b64encode, decodeQuads]
  | [a], h => by
    have ha : a < 256 := h a (by simp)
    have h1 := b64val_b64chr (a / 4) (by omega)
    have h2 := b64val_b64chr (a % 4 * 16) (by omega)
    simp only [b64decode, b64encode, List.filterMap_cons, h1, h2, b64val_pad,
      List.filterMap_nil, decodeQuads]
    have e1 : a / 4 * 4 + a % 4 * 16 / 16 = a := by omega
    rw [e1]
  | [a, b], h => by
    have ha : a < 256 := h a (by simp)
    have hb : b < 256 := h b (by simp)
    have h1 := b64val_b64chr (a / 4) (by omega)
    have h2 := b64val_b64chr (a % 4 * 16 + b / 16) (by omega)
    have h3 := b64val_b64chr (b % 16 * 4) (by omega)
    simp only [b64decode, b64encode, List.filterMap_cons, h1, h2, h3, b64val_pad,
      List.filterMap_nil, decodeQuads]
    have e1 : a / 4 * 4 + (a % 4 * 16 + b / 16) / 16 = a := by omega
    have e2 : (a % 4 * 16 + b / 16) % 16 * 16 + b % 16 * 4 / 4 = b := by omega
    rw [e1, e2]
  | a :: b :: c :: rest, h => by
    have ha : a < 256 := h a (by simp)
    have hb : b < 256 := h b (by simp)
    have hc : c < 256 := h c (by simp)
    have h1 := b64val_b64chr (a / 4) (by omega)
    have h2 := b64val_b64chr (a % 4 * 16 + b / 16) (by omega)
    have h3 := b64val_b64chr (b % 16 * 4 + c / 64) (by omega)
    have h4 := b64val_b64chr (c % 64) (by omega)
    have ih := b64decode_b64encode rest (fun x hx => h x (by simp [hx]))
    simp only [b64decode] at ih
    simp only [b64decode, b64encode, List.filterMap_cons, h1, h2, h3, h4]
    show decodeQuads (_ :: _ :: _ :: _ :: _) = _
    rw [decodeQuads, ih]
    have e1 : a / 4 * 4 + (a % 4 * 16 + b / 16) / 16 = a := by omega
    have e2 : (a % 4 * 16 + b / 16) % 16 * 16 + (b % 16 * 4 + c / 64) / 4 = b := by omega
    have e3 : (b % 16 * 4 + c / 64) % 4 * 64 + c % 64 = c := by omega
    simp [e1, e2, e3]

/-- Round-trip of `decrypt_secret` after `encrypt_secret` (shared helper). -/
theorem decrypt_encrypt_aux (F : FernetCipher) (p : List Nat)
    (hp : ∀ b ∈ p, b < 256) :
    decrypt_secret F (encrypt_secret F p) = some p := by
  unfold decrypt_secret encrypt_secret
  rw [b64decode_b64encode (F.enc p) (F.enc_bytes p hp)]
  simp [F.dec_enc p hp]

/-- C2.  Round-trip of the Encryption Service: for every plaintext byte
string `p`, decrypting the envelope produced by encrypting `p` under the
same cipher returns exactly `p`. -/
theorem decrypt_encrypt_roundtrip (F : FernetCipher) (p : List Nat)
    (hp : ∀ b ∈ p, b < 256) :
    decrypt_secret F (encrypt_secret F p) = some p :=
  decrypt_encrypt_aux F p hp

/-- Witness for C2 at a concrete plaintext. -/
theorem decrypt_encrypt_roundtrip_witness :
    decrypt_secret idFernet (encrypt_secret idFernet [74, 66, 83, 87]) = some [74, 66, 83, 87] :=
  decrypt_encrypt_roundtrip idFernet [74, 66, 83, 87] (by decide)

/-- C1.  `setup_encryption` generates and persists a fresh key whenever the
key artifact is absent, regardless of the accounts table: the first
conjunct shows this for every table (including non-empty ones), the second
evaluates it on a concrete non-empty table, and the third shows an
existing key is loaded verbatim. -/
theorem setup_encryption_regenerates_key :
    (∀ rows fresh, setup_encryption rows none fresh = (some fresh, fresh))
    ∧ setup_encryption [⟨1, "github", "YWI=".data, "GitHub", 0⟩] none [9, 9, 9]
        = (some [9, 9, 9], [9, 9, 9])
    ∧ (∀ rows k fresh, setup_encryption rows (some k) fresh = (some k, k)) :=
  ⟨fun _ _ => rfl, rfl, fun _ _ _ => rfl⟩

/-- C3.  On a fetched table in which at least one row decrypts, the listing
returns exactly the successfully decrypted rows (as a permutation of the
per-row decryption results: failing rows are skipped individually), and in
particular is neither an error (it is a plain list) nor empty. -/
theorem get_all_accounts_skips_corrupt (F : FernetCipher) (rows : List Row)
    (h : ∃ r ∈ rows, decryptRow F r ≠ none) :
    (get_all_accounts F (Except.ok rows)).Perm (rows.filterMap (decryptRow F))
    ∧ get_all_accounts F (Except.ok rows) ≠ [] := by
  have hperm : (get_all_accounts F (Except.ok rows)).Perm (rows.filterMap (decryptRow F)) :=
    (List.perm_insertionSort byName rows).filterMap (decryptRow F)
  refine ⟨hperm, ?_⟩
  obtain ⟨r, hr, hne⟩ := h
  obtain ⟨a, ha⟩ := Option.ne_none_iff_exists'.mp hne
  have hmem : a ∈ rows.filterMap (decryptRow F) := List.mem_filterMap.mpr ⟨r, hr, ha⟩
  have : a ∈ get_all_accounts F (Except.ok rows) := hperm.mem_iff.mpr hmem
  exact List.ne_nil_of_mem this

/-- Witness for C3: a two-row table whose second envelope is corrupted (a
single base64 character cannot decode); the listing is exactly the one
good account. -/
theorem get_all_accounts_skips_corrupt_witness :
    (get_all_accounts idFernet (Except.ok
        [⟨1, "good", "YWI=".data, "", 0⟩, ⟨2, "bad", "Q".data, "", 0⟩])).Perm
      ([⟨1, "good", "YWI=".data, "", 0⟩, ⟨2, "bad", "Q".data, "", 0⟩].filterMap
        (decryptRow idFernet))
    ∧ get_all_accounts idFernet (Except.ok
        [⟨1, "good", "YWI=".data, "", 0⟩, ⟨2, "bad", "Q".data, "", 0⟩]) ≠ [] :=
  get_all_accounts_skips_corrupt idFernet
    [⟨1, "good", "YWI=".data, "", 0⟩, ⟨2, "bad", "Q".data, "", 0⟩] (by decide)

/-- Bytes of an ASCII string are below 256. -/
theorem strBytes_lt (s : String) (h : ∀ c ∈ s.data, c.toNat < 128) :
    ∀ b ∈ strBytes s, b < 256 := by
  intro b hb
  obtain ⟨c, hc, rfl⟩ := List.mem_map.mp hb
  exact lt_trans (h c hc) (by norm_num)

/-- Decoding the bytes of a string gives the string back. -/
theorem byteStr_strBytes (s : String) : byteStr (strBytes s) = s := by
  simp [byteStr, strBytes, List.map_map, Function.comp_def, Char.ofNat_toNat]

/-- Mapping a function that fixes every id-mismatched row is the identity
on a table that does not contain the id. -/
theorem update_map_frame (g : Row → Row) (i : Nat) : ∀ db : List Row,
    (∀ r ∈ db, r.id ≠ i) →
    db.map (fun r => if r.id = i then g r else r) = db
  | [], _ => rfl
  | r :: rest, h => by
    have h1 : r.id ≠ i := h r (by simp)
    simp only [List.map_cons, if_neg h1,
      update_map_frame g i rest (fun x hx => h x (by simp [hx])), List.cons.injEq,
      and_self]

/-- C5 counterexample.  Adding the account `("github", "ab", "")` to an
empty store and listing yields a record whose decrypted secret is the
input `"ab"` verbatim, not its cleaned form `"AB"`: `Database.add_account`
performs no cleaning (the UI dialog cleans before calling it). -/
theorem add_then_list_secret_not_cleaned :
    add_account idFernet (Except.ok []) "github" "ab" "" 0
      = Except.ok ([⟨1, "github", "YWI=".data, "", 0⟩], 1)
    ∧ get_all_accounts idFernet (Except.ok [⟨1, "github", "YWI=".data, "", 0⟩])
      = [⟨1, "github", "ab", ""⟩]
    ∧ ("ab" : String) ≠ "AB" := by decide

/-- C5 (amended).  Starting from an empty store, adding `(name, secret,
issuer)` and listing yields exactly one record with matching name and
issuer, whose decrypted secret equals the input secret verbatim. -/
theorem add_then_list_all (F : FernetCipher) (name secret issuer : String) (now : Nat)
    (h : ∀ c ∈ secret.data, c.toNat < 128) :
    add_account F (Except.ok []) name secret issuer now
      = Except.ok ([⟨1, name, encrypt_secret F (strBytes secret), issuer, now⟩], 1)
    ∧ get_all_accounts F
        (Except.ok [⟨1, name, encrypt_secret F (strBytes secret), issuer, now⟩])
      = [⟨1, name, secret, issuer⟩] := by
  refine ⟨rfl, ?_⟩
  have hd : decrypt_secret F (encrypt_secret F (strBytes secret)) = some (strBytes secret) :=
    decrypt_encrypt_aux F (strBytes secret) (strBytes_lt secret h)
  simp [get_all_accounts, List.insertionSort, List.orderedInsert, decryptRow, hd,
    byteStr_strBytes]

/-- Witness for C5 (amended) at a concrete account. -/
theorem add_then_list_all_witness :
    add_account idFernet (Except.ok []) "github" "ab" "gh" 7
      = Except.ok ([⟨1, "github", encrypt_secret idFernet (strBytes "ab"), "gh", 7⟩], 1)
    ∧ get_all_accounts idFernet
        (Except.ok [⟨1, "github", encrypt_secret idFernet (strBytes "ab"), "gh", 7⟩])
      = [⟨1, "github", "ab", "gh"⟩] :=
  add_then_list_all idFernet "github" "ab" "gh" 7 (by decide)

/-- C9 counterexample.  A storage-layer error during the listing operation
is swallowed: `get_all_accounts` returns the same normal-looking empty
listing as a successful call on an empty store, instead of failing. -/
theorem get_all_accounts_swallows_storage_error :
    get_all_accounts idFernet (Except.error "disk full")
      = get_all_accounts idFernet (Except.ok [])
    ∧ get_all_accounts idFernet (Except.error "disk full") = [] := ⟨rfl, rfl⟩

/-- C9 (amended).  Storage-layer errors propagate to the caller for `add`,
`delete` and `update`, but `get_all_accounts` converts them into an empty
listing. -/
theorem storage_error_propagation (F : FernetCipher) (e : StorageErr)
    (name secret issuer : String) (now account_id : Nat) :
    add_account F (Except.error e) name secret issuer now = Except.error e
    ∧ delete_account (Except.error e) account_id = Except.error e
    ∧ update_account F (Except.error e) account_id name secret issuer = Except.error e
    ∧ get_all_accounts F (Except.error e) = [] :=
  ⟨rfl, rfl, rfl, rfl⟩

/-- C10.  Updating an id that is not present in the table raises no error
and leaves every row unchanged. -/
theorem update_account_missing_id_noop (F : FernetCipher) (db : List Row)
    (account_id : Nat) (name secret issuer : String)
    (h : ∀ r ∈ db, r.id ≠ account_id) :
    update_account F (Except.ok db) account_id name secret issuer = Except.ok db := by
  simp only [update_account]
  rw [update_map_frame _ account_id db h]

/-- Witness for C10 on a concrete one-row table and a missing id. -/
theorem update_account_missing_id_noop_witness :
    update_account idFernet (Except.ok [⟨1, "github", "YWI=".data, "", 0⟩]) 2
      "other" "CD" "x" = Except.ok [⟨1, "github", "YWI=".data, "", 0⟩] :=
  update_account_missing_id_noop idFernet [⟨1, "github", "YWI=".data, "", 0⟩] 2
    "other" "CD" "x" (by decide)

theorem digit_bounds : ∀ k < 10, '0' ≤ Char.ofNat (48 + k) ∧ Char.ofNat (48 + k) ≤ '9' := by
  decide

theorem digitChar_digit (d : Nat) : '0' ≤ digitChar d ∧ digitChar d ≤ '9' :=
  digit_bounds (d % 10) (Nat.mod_lt _ (by norm_num))

theorem formatCode_sixDigits (n : Nat) : isSixDigits (formatCode n) := by
  refine ⟨rfl, ?_⟩
  intro c hc
  simp only [formatCode, List.mem_cons, List.not_mem_nil, or_false] at hc
  rcases hc with h | h | h | h | h | h <;> rw [h] <;> exact digitChar_digit _

theorem formatCode_ne_error (n : Nat) : formatCode n ≠ "ERROR" := by
  intro h
  have h6 : (formatCode n).length = 6 := rfl
  rw [h] at h6
  exact absurd h6 (by decide)

/-- C4.  `generate_token` returns the sentinel `"ERROR"` exactly when the
cleaned secret is not decodable Base32 key material, and otherwise a
string of exactly six ASCII digits (the value therefore lies in
[0, 999999]); it is a total function (the source's catch-all `except`),
so no exception reaches the caller. -/
theorem generate_token_spec (hmacSha1 : List Nat → List Nat → List Nat)
    (secret : String) (t : Nat) :
    (generate_token hmacSha1 secret t = "ERROR" ↔ b32decode (clean_secret secret) = none)
    ∧ (generate_token hmacSha1 secret t = "ERROR"
        ∨ isSixDigits (generate_token hmacSha1 secret t)) := by
  unfold generate_token
  cases hdec : b32decode (clean_secret secret) with
  | none => exact ⟨by simp, Or.inl rfl⟩
  | some key =>
      refine ⟨⟨fun h => absurd h (formatCode_ne_error _), fun h => by simp at h⟩, ?_⟩
      exact Or.inr (formatCode_sixDigits _)

/-- Witness for C4: a malformed secret yields the sentinel and a valid
secret yields a six-digit code. -/
theorem generate_token_spec_witness :
    generate_token zeroHmac "AAAAAAAAA" 0 = "ERROR"
    ∧ isSixDigits (generate_token zeroHmac "JBSWY3DPEHPK3PXP" 59) :=
  ⟨(generate_token_spec zeroHmac "AAAAAAAAA" 0).1.mpr (by decide),
   ((generate_token_spec zeroHmac "JBSWY3DPEHPK3PXP" 59).2).resolve_left (by decide)⟩

/-- C7.  `validate_secret` reports the nine-character secret `"AAAAAAAAA"`
(cleaned form of length 9, all `[A-Z2-7]`, but an impossible Base32 block
length) as valid, even though its Base32 decoding fails and
`generate_token` on the very same secret returns the sentinel: the
`pyotp.TOTP` construction tested by the code never decodes the secret. -/
theorem validate_secret_accepts_undecodable :
    validate_secret "AAAAAAAAA" = (true, "Chave válida")
    ∧ b32decode (clean_secret "AAAAAAAAA") = none
    ∧ generate_token zeroHmac "AAAAAAAAA" 0 = "ERROR" := by decide

/-- C8 counterexample.  At `t = 15` the code returns `50.0` — a percentage
— not the elapsed fraction `1/2`, and the result is far outside `[0, 1)`. -/
theorem get_progress_percentage_at_15 :
    get_progress_percentage 15 = 50
    ∧ (30 - (get_time_remaining 15 : ℚ)) / 30 = 1 / 2
    ∧ ¬ get_progress_percentage 15 < 1
    ∧ get_progress_percentage 15 ≠ (30 - (get_time_remaining 15 : ℚ)) / 30 := by
  norm_num [get_progress_percentage, get_time_remaining]

/-- C8 (amended).  At every time `t` the code returns
`((30 - remaining) / 30) * 100`, the elapsed percentage of the current
30-second window, a value in `[0, 100)`. -/
theorem get_progress_percentage_range (t : Nat) :
    get_progress_percentage t = ((30 - (get_time_remaining t : ℚ)) / 30) * 100
    ∧ 0 ≤ get_progress_percentage t ∧ get_progress_percentage t < 100 := by
  have h1 : t % 30 < 30 := Nat.mod_lt _ (by norm_num)
  have h2 : get_time_remaining t ≤ 30 := by unfold get_time_remaining; omega
  have h3 : 1 ≤ get_time_remaining t := by unfold get_time_remaining; omega
  have hc2 : (get_time_remaining t : ℚ) ≤ 30 := by exact_mod_cast h2
  have hc3 : (1 : ℚ) ≤ (get_time_remaining t : ℚ) := by exact_mod_cast h3
  refine ⟨rfl, ?_, ?_⟩
  · unfold get_progress_percentage
    have : (0 : ℚ) ≤ 30 - (get_time_remaining t : ℚ) := by linarith
    positivity
  · unfold get_progress_percentage
    rw [div_mul_eq_mul_div, div_lt_iff₀ (by norm_num : (0 : ℚ) < 30)]
    linarith

/-- C6 counterexample.  A URL that does NOT begin with `otpauth://totp/`
(it is an `otpauth://hotp/` URL carrying the string `otpauth://totp/`
later, in a query value) is nevertheless accepted and parsed into a
record, because the source tests substring containment, not the prefix. -/
theorem parse_otpauth_url_accepts_non_totp :
    (parse_otpauth_url "otpauth://hotp/acct?secret=ABC234&x=otpauth://totp/").1
      = some ("otpauth://hotp/acct", "ABC234", "")
    ∧ hasLead totpTag "otpauth://hotp/acct?secret=ABC234&x=otpauth://totp/".data
      = false := by decide

/-- C6 (amended).  `parse_otpauth_url` accepts a URL only if it begins
with `otpauth://` and contains `otpauth://totp/` somewhere (rather than
necessarily as a prefix); every other scheme or type is rejected with a
reason and a `none` record, and an accepted record always carries all
three fields (name, secret, defaulted issuer) by construction. -/
theorem parse_otpauth_url_accept_requires (url : String)
    (h : (parse_otpauth_url url).1 ≠ none) :
    hasLead schemeTag url.data = true ∧ hasInside totpTag url.data = true := by
  by_cases h1 : hasLead schemeTag url.data = true
  · by_cases h2 : hasInside totpTag url.data = true
    · exact ⟨h1, h2⟩
    · exfalso
      apply h
      simp [parse_otpauth_url, h1, h2]
  · exfalso
    apply h
    simp [parse_otpauth_url, h1]

/-- Witness for C6 (amended): the canonical provisioning URL is accepted,
so it passes both checks. -/
theorem parse_otpauth_url_accept_requires_witness :
    hasLead schemeTag
        "otpauth://totp/Google:user@gmail.com?secret=JBSWY3DPEHPK3PXP&issuer=Google".data = true
    ∧ hasInside totpTag
        "otpauth://totp/Google:user@gmail.com?secret=JBSWY3DPEHPK3PXP&issuer=Google".data = true :=
  parse_otpauth_url_accept_requires
    "otpauth://totp/Google:user@gmail.com?secret=JBSWY3DPEHPK3PXP&issuer=Google" (by decide)
